import Mathlib

/-!
Shallow embedding of the lighthouse-ci batch auditing tool (src/main.mjs)
and verification of its specification claims.

The source is a small Node.js script. Pure computations (URL-to-filename
mapping, score differencing, two-decimal formatting) become Lean functions;
filesystem interaction is modelled by an explicit `FileSystem` record of
injected functions, and fallible operations return `Option` / `Except`.
Scores (JS numbers in the range 0..1) are modelled as rationals.
-/

set_option autoImplicit false
set_option linter.unusedVariables false

namespace LighthouseCI

/-- Checks whether the list `pre` of characters occurs at the head of `s`.
Models the position-by-position matching a JS regex engine performs when it
tries a (literal) pattern at one position of the subject string. -/
def startsWithStr : List Char → List Char → Bool
  | [], _ => true
  | _ :: _, [] => false
  | a :: as, b :: bs => a == b && startsWithStr as bs

/-- Embedding of the JS expression `url.replace(/https?:\/\//, '')`, acting
on the character list of the URL.  A non-global regex `replace` removes the
FIRST occurrence of the pattern anywhere in the string (not only a leading
prefix).  The regex `https?:\/\/` matches exactly the literal substrings
`http://` and `https://` (at any one position at most one of them can match,
because the character after `http` is either `s` or `:`). -/
def schemeStrip : List Char → List Char
  | [] => []
  | c :: rest =>
    if startsWithStr "https://".data (c :: rest) then (c :: rest).drop 8
    else if startsWithStr "http://".data (c :: rest) then (c :: rest).drop 7
    else c :: schemeStrip rest

/-- Embedding of the JS expression `s.replace(/\//g, '_')`: replaces every
slash character by an underscore. -/
def slashToUnderscore (s : String) : String :=
  String.mk (s.data.map (fun c => if c == '/' then '_' else c))

/-- Embedding of the URL-to-filename mapping used by both `saveResult`
(src/main.mjs line 51) and `getPreviousResult` (line 97):
`url.replace(/https?:\/\//, '').replace(/\//g, '_')`. -/
def fileNameBase (url : String) : String :=
  String.mk ((schemeStrip url.data).map (fun c => if c == '/' then '_' else c))

/-- Modelled from the spec (section 6, "URL-to-filename mapping: strip
leading `http://` or `https://`, replace every `/` with `_`"): the mapping
as the specification describes it, stripping the scheme only when it occurs
as a LEADING prefix of the URL.  Used to compare the spec's wording with the
source's actual `fileNameBase`. -/
def fileNameBaseSpec (url : String) : String :=
  let stripped :=
    if startsWithStr "https://".data url.data then url.data.drop 8
    else if startsWithStr "http://".data url.data then url.data.drop 7
    else url.data
  String.mk (stripped.map (fun c => if c == '/' then '_' else c))

/-- Embedding of the JS expression `arg.replace('--', '')` (string pattern,
so only the first occurrence of `--` is removed). -/
def removeFirstOcc (pat : List Char) : List Char → List Char
  | [] => []
  | c :: rest =>
    if startsWithStr pat (c :: rest) then (c :: rest).drop pat.length
    else c :: removeFirstOcc pat rest

/-- Embedding of `arg.replace('--', '')` from src/main.mjs line 129. -/
def stripDashes (s : String) : String :=
  String.mk (removeFirstOcc "--".data s.data)

/-- Pads a number below 100 to two decimal digits (helper for the
`toFixed(2)` embedding). -/
def pad2 (n : Nat) : String :=
  if n < 10 then "0" ++ toString n else toString n

/-- Number of hundredths in `q`, rounded to nearest with ties away from
zero, for nonnegative `q`: the integer `n` the ECMAScript `toFixed`
algorithm picks (the `n` with `n / 10^2` closest to the value, larger `n`
on ties).  For nonnegative `q` this is the floor of `q * 100 + 1/2`,
computed directly on the rational's numerator and denominator. -/
def fixedHundredths (q : ℚ) : Nat :=
  let r : ℚ := q * 100 + 1/2
  r.num.toNat / r.den

/-- Embedding of the ECMAScript `Number.prototype.toFixed(2)` on rational
values: emit a minus sign for negative input, then the rounded hundredths
split into integer part and a two-digit fraction. -/
def toFixed2 (q : ℚ) : String :=
  if q < 0 then
    "-" ++ toString (fixedHundredths (-q) / 100) ++ "." ++ pad2 (fixedHundredths (-q) % 100)
  else
    toString (fixedHundredths q / 100) ++ "." ++ pad2 (fixedHundredths q % 100)

/-- One category of a lighthouse report: a title and a score.  The score is
`none` when the JSON value is `null`/absent (lighthouse reports can carry a
null score); a present score is a rational in place of the JS number. -/
structure Category where
  title : String
  score : Option ℚ
  deriving DecidableEq, Repr

/-- A lighthouse report restricted to what src/main.mjs reads from it: the
`categories` object, modelled as an association list from category id to
`Category` in the object's key iteration order. -/
structure Report where
  categories : List (String × Category)
  deriving DecidableEq, Repr

/-- One row of the score-difference table produced by
`calculateScoreDifferences` (src/main.mjs lines 68-73).  Field names follow
the JS object keys `Category`, `Previous Score`, `Current Score`,
`Difference`. -/
structure ScoreDifference where
  category : String
  previousScore : String
  currentScore : String
  difference : String
  deriving DecidableEq, Repr

/-- The body of the arrow function at src/main.mjs lines 63-74, for one
`categoryId`.  The JS property accesses `currentResult.categories[categoryId]`
and `previousResult.categories[categoryId]` throw a `TypeError` when the
category id is absent (reading `.title` or `.score` of `undefined`), which
the embedding renders as `none`.  The JS `score || 0` treats a null/absent
score as 0, rendered as `Option.getD` with default 0. -/
def scoreEntry (previousResult currentResult : Report) (categoryId : String) :
    Option ScoreDifference := do
  let currentCat ← List.lookup categoryId currentResult.categories
  let previousCat ← List.lookup categoryId previousResult.categories
  let previousScore : ℚ := (previousCat.score.getD 0) * 100
  let currentScore : ℚ := (currentCat.score.getD 0) * 100
  let difference : ℚ := currentScore - previousScore
  pure {
    category := currentCat.title
    previousScore := toFixed2 previousScore
    currentScore := toFixed2 currentScore
    difference := toFixed2 difference
  }

/-- Sequencing of a fallible map over a list: `Array.prototype.map` where the
callback may throw, so the first failure aborts the whole computation. -/
def mapOption {α β : Type} (f : α → Option β) : List α → Option (List β)
  | [] => some []
  | a :: as =>
    match f a, mapOption f as with
    | some b, some bs => some (b :: bs)
    | _, _ => none

/-- Embedding of `calculateScoreDifferences` (src/main.mjs lines 61-76):
map over `Object.keys(currentResult.categories)` building one
`ScoreDifference` row per key; `none` models the `TypeError` thrown when a
category id of `current` is missing from `previous`. -/
def calculateScoreDifferences (previousResult currentResult : Report) :
    Option (List ScoreDifference) :=
  mapOption (scoreEntry previousResult currentResult)
    (currentResult.categories.map Prod.fst)

/-- Embedding of `path.join(a, b)` for the clean, nonempty, slash-free
segments this program joins: concatenation with a single separator. -/
def joinPath (a b : String) : String := a ++ "/" ++ b

/-- Embedding of `path.dirname` (posix) on the relative slash-separated
paths this program constructs (nonempty segments, no trailing slash):
drop the last path component. -/
def dirname (p : String) : String :=
  let parts := p.splitOn "/"
  if parts.length ≤ 1 then "." else String.intercalate "/" parts.dropLast

/-- One entry of an `fs.readdir(dir, { withFileTypes: true })` listing:
the entry name and whether it is a directory. -/
structure DirEntry where
  name : String
  isDirectory : Bool
  deriving DecidableEq, Repr

/-- Outcome of an `fs.readFile` call: the content on success, the ENOENT
("no such file or directory") error class, or any other error code. -/
inductive ReadResult (α : Type) where
  | ok (content : α)
  | enoent
  | err (code : String)
  deriving DecidableEq, Repr

/-- The filesystem as the program observes it, modelled as injected
functions: a directory listing, a modification time per path (the numeric
value of `stat.mtime`), and a file reader.  The content type `α` is a
parameter: `String` for raw file contents, or `Report` when the JSON
parsing of a stored report is absorbed into the read. -/
structure FileSystem (α : Type) where
  readdir : String → List DirEntry
  mtime : String → Int
  readFile : String → ReadResult α

/-- Insertion step of a stable descending sort by the second component:
an element moves left past exactly those elements with a strictly smaller
key, so elements with equal keys keep their relative order. -/
def insertByMtimeDesc {β : Type} (x : β × Int) : List (β × Int) → List (β × Int)
  | [] => [x]
  | y :: ys => if x.2 > y.2 then x :: y :: ys else y :: insertByMtimeDesc x ys

/-- Stable descending sort by the second component, modelling the JS call
`stats.sort((a, b) => b.mtime - a.mtime)` (ECMAScript `Array.prototype.sort`
is stable and the comparator orders by descending mtime). -/
def sortByMtimeDesc {β : Type} : List (β × Int) → List (β × Int)
  | [] => []
  | x :: xs => insertByMtimeDesc x (sortByMtimeDesc xs)

/-- Region directory derivation from the current report's path
(src/main.mjs lines 79-81): three successive `path.dirname` applications. -/
def countryDirOf (currentFilePath : String) : String :=
  dirname (dirname (dirname currentFilePath))

/-- Embedding of src/main.mjs lines 82-85: list the region directory, keep
the entries that are directories, and pair each name with its full path. -/
def timestampDirsOf {α : Type} (fs : FileSystem α) (currentFilePath : String) :
    List (String × String) :=
  ((fs.readdir (countryDirOf currentFilePath)).filter (fun d => d.isDirectory)).map
    (fun d => (d.name, joinPath (countryDirOf currentFilePath) d.name))

/-- Embedding of src/main.mjs lines 87-91: stat every timestamp directory
for its mtime and sort descending by mtime. -/
def statsOf {α : Type} (fs : FileSystem α) (currentFilePath : String) :
    List ((String × String) × Int) :=
  sortByMtimeDesc ((timestampDirsOf fs currentFilePath).map
    (fun p => (p, fs.mtime p.2)))

/-- Embedding of `getPreviousResult` (src/main.mjs lines 78-105).  The
`country` parameter is accepted but, as in the source, never used: the
region directory is derived from `currentFilePath` alone.  Returns
`Except.error` for a propagated filesystem error (the re-thrown non-ENOENT
case at line 102), `Except.ok none` for "no previous report" and
`Except.ok (some content)` on success. -/
def getPreviousResult {α : Type} (fs : FileSystem α)
    (url currentFilePath country device : String) : Except String (Option α) :=
  match (statsOf fs currentFilePath).get? 1 with
  | none => Except.ok none
  | some second =>
    let previousTimestampDir := second.1.2
    let deviceDir := joinPath previousTimestampDir device
    let fileName := fileNameBase url ++ ".json"
    let previousFilePath := joinPath deviceDir fileName
    match fs.readFile previousFilePath with
    | ReadResult.ok content => Except.ok (some content)
    | ReadResult.enoent => Except.ok none
    | ReadResult.err code => Except.error code

/-- The report-file path produced by `saveResult` (src/main.mjs lines
47-58): `results/<country>/<timestamp>/<device>/<urlAsFilename>.json`. -/
def saveResultPath (timestamp url country device : String) : String :=
  joinPath (joinPath (joinPath (joinPath "results" country) timestamp) device)
    (fileNameBase url ++ ".json")

/-- The per-URL record pushed onto `allScoreDifferences[country]`
(src/main.mjs lines 153-157). -/
structure UrlScoreDiffs where
  url : String
  device : String
  scoreDifferences : List ScoreDifference
  deriving DecidableEq, Repr

/-- Observable outcome of one successful invocation of `main`: the report
file paths written by `saveResult` in order, the accumulated per-region
score differences, the summary file write (path) if one happened, and the
final console message. -/
structure MainOutcome where
  savedReports : List String
  allScoreDifferences : List (String × List UrlScoreDiffs)
  summaryWrite : Option String
  finalMessage : String
  deriving DecidableEq, Repr

/-- The body of the innermost device loop (src/main.mjs lines 144-159) for
one (country, url, device) triple: run the audit, save the report, look up
the previous report and, when one exists, compute the score differences.
`audit` is the injected black-box audit engine (`runLighthouse` gives
`result.lhr`); the JSON round-trip through the stored file is absorbed by
using `FileSystem Report`.  An `Except.error` models an uncaught exception
aborting the invocation (a propagated filesystem error, or the `TypeError`
thrown by `calculateScoreDifferences` on a missing category). -/
def deviceStep (fs : FileSystem Report) (timestamp country url device : String)
    (audit : String → String → Report) :
    Except String (String × Option UrlScoreDiffs) :=
  let result := audit url device
  let currentFilePath := saveResultPath timestamp url country device
  match getPreviousResult fs url currentFilePath country device with
  | Except.error e => Except.error e
  | Except.ok none => Except.ok (currentFilePath, none)
  | Except.ok (some previousResult) =>
    match calculateScoreDifferences previousResult result with
    | none => Except.error "TypeError: Cannot read properties of undefined"
    | some scoreDifferences =>
      Except.ok (currentFilePath, some ⟨url, device, scoreDifferences⟩)

/-- Fold of `deviceStep` over the device list `['mobile', 'desktop']`
(src/main.mjs line 144), accumulating saved paths and pushed records in
order. -/
def devicesFold (fs : FileSystem Report) (timestamp country url : String)
    (audit : String → String → Report) :
    List String → Except String (List String × List UrlScoreDiffs)
  | [] => Except.ok ([], [])
  | device :: rest =>
    match deviceStep fs timestamp country url device audit with
    | Except.error e => Except.error e
    | Except.ok (p, entry) =>
      match devicesFold fs timestamp country url audit rest with
      | Except.error e => Except.error e
      | Except.ok (ps, entries) =>
        Except.ok (p :: ps, match entry with | some u => u :: entries | none => entries)

/-- Fold of the URL loop (src/main.mjs line 143) over a region's URLs. -/
def urlsFold (fs : FileSystem Report) (timestamp country : String)
    (audit : String → String → Report) :
    List String → Except String (List String × List UrlScoreDiffs)
  | [] => Except.ok ([], [])
  | url :: rest =>
    match devicesFold fs timestamp country url audit ["mobile", "desktop"] with
    | Except.error e => Except.error e
    | Except.ok (ps, entries) =>
      match urlsFold fs timestamp country audit rest with
      | Except.error e => Except.error e
      | Except.ok (ps2, entries2) => Except.ok (ps ++ ps2, entries ++ entries2)

/-- Fold of the country loop (src/main.mjs lines 134-161): a country absent
from the configuration object is logged and skipped (no entry is created);
otherwise `allScoreDifferences[country]` is created (possibly left empty)
and filled by the inner loops. -/
def countriesFold (fs : FileSystem Report)
    (urlsObject : List (String × List String)) (timestamp : String)
    (audit : String → String → Report) :
    List String → Except String (List String × List (String × List UrlScoreDiffs))
  | [] => Except.ok ([], [])
  | country :: rest =>
    match List.lookup country urlsObject with
    | none => countriesFold fs urlsObject timestamp audit rest
    | some urls =>
      match urlsFold fs timestamp country audit urls with
      | Except.error e => Except.error e
      | Except.ok (ps, entries) =>
        match countriesFold fs urlsObject timestamp audit rest with
        | Except.error e => Except.error e
        | Except.ok (ps2, byCountry) =>
          Except.ok (ps ++ ps2, (country, entries) :: byCountry)

/-- Embedding of `main` (src/main.mjs lines 124-202).  Inputs are the
parsed configuration object (`urls.json`), the raw process arguments, the
clock (successive results of `getLocalDateTime()`: index 0 is the call at
line 132, index 1 the call at line 191), the injected audit engine and the
filesystem.  The summary phase (lines 163-201) writes the aggregate
document only when some region accumulated a nonempty list of differences,
and takes a FRESH clock reading for the summary file name. -/
def mainModel (fs : FileSystem Report) (urlsObject : List (String × List String))
    (args : List String) (clock : Nat → String)
    (audit : String → String → Report) : Except String MainOutcome :=
  let countriesToRun := args.map stripDashes
  let countries :=
    if countriesToRun.length ≠ 0 then countriesToRun else urlsObject.map Prod.fst
  let timestamp := clock 0
  match countriesFold fs urlsObject timestamp audit countries with
  | Except.error e => Except.error e
  | Except.ok (saved, allScoreDifferences) =>
    if allScoreDifferences.any (fun p => 0 < p.2.length) then
      let summaryTimestamp := clock 1
      let summaryFilePath :=
        joinPath (joinPath "results" "summary") ("summary-" ++ summaryTimestamp ++ ".html")
      Except.ok ⟨saved, allScoreDifferences, some summaryFilePath,
        "Summary HTML has been saved to " ++ summaryFilePath⟩
    else
      Except.ok ⟨saved, allScoreDifferences, none, "No score differences to report."⟩

/-- Exit code of the process: `main().catch(error => { ...; process.exit(1) })`
(src/main.mjs lines 204-207) exits 1 on any uncaught error, and the process
terminates normally with code 0 otherwise. -/
def exitCode (r : Except String MainOutcome) : Nat :=
  match r with
  | Except.ok _ => 0
  | Except.error _ => 1

/-- Previous report of the worked example in spec section 8: scores
A = 0.80, B = 0.90. -/
def examplePrev : Report := ⟨[("A", ⟨"A", some 0.80⟩), ("B", ⟨"B", some 0.90⟩)]⟩

/-- Current report of the worked example in spec section 8: scores
A = 0.85, B = 0.90. -/
def exampleCur : Report := ⟨[("A", ⟨"A", some 0.85⟩), ("B", ⟨"B", some 0.90⟩)]⟩

/-- Expected differ output of the worked example in spec section 8. -/
def exampleDiffs : List ScoreDifference :=
  [⟨"A", "80.00", "85.00", "5.00"⟩, ⟨"B", "90.00", "90.00", "0.00"⟩]

/-- Previous report stored on disk in the two-snapshot scenario. -/
def scenarioPrevReport : Report := ⟨[("performance", ⟨"Performance", some 0.8⟩)]⟩

/-- Report the audit engine returns in the two-snapshot scenario. -/
def scenarioCurReport : Report := ⟨[("performance", ⟨"Performance", some 0.9⟩)]⟩

/-- Filesystem of the two-snapshot scenario: the region directory
`results/us` holds the just-written snapshot `T0` (newest mtime) and a
prior snapshot `P`; the previous mobile report exists, the desktop one does
not. -/
def scenarioFs : FileSystem Report where
  readdir := fun d => if d = "results/us" then [⟨"T0", true⟩, ⟨"P", true⟩] else []
  mtime := fun p => if p = "results/us/T0" then 2 else 1
  readFile := fun p =>
    if p = "results/us/P/mobile/x.com_a.json" then ReadResult.ok scenarioPrevReport
    else ReadResult.enoent

/-- Configuration object of the scenarios: one region with one URL. -/
def scenarioUrls : List (String × List String) := [("us", ["http://x.com/a"])]

/-- Clock of the two-snapshot scenario: the first `getLocalDateTime()` call
returns `T0`, the second returns `T1` (some seconds have passed while the
audits ran). -/
def scenarioClock : Nat → String := fun n => if n = 0 then "T0" else "T1"

/-- Audit engine of the two-snapshot scenario. -/
def scenarioAudit : String → String → Report := fun _ _ => scenarioCurReport

/-- Outcome `mainModel` produces on the two-snapshot scenario. -/
def scenarioOutcome : MainOutcome :=
  ⟨["results/us/T0/mobile/x.com_a.json", "results/us/T0/desktop/x.com_a.json"],
    [("us", [⟨"http://x.com/a", "mobile",
      [⟨"Performance", "80.00", "90.00", "10.00"⟩]⟩])],
    some "results/summary/summary-T1.html",
    "Summary HTML has been saved to results/summary/summary-T1.html"⟩

/-- Filesystem with no snapshots at all (fresh `results` tree): every
directory listing is empty and every read fails with ENOENT. -/
def emptyFs : FileSystem Report where
  readdir := fun _ => []
  mtime := fun _ => 0
  readFile := fun _ => ReadResult.enoent

/-- Outcome `mainModel` produces on the no-baseline scenario: both device
runs are saved, no differences accumulate, no summary is written. -/
def noBaselineOutcome : MainOutcome :=
  ⟨["results/us/T/mobile/x.com_a.json", "results/us/T/desktop/x.com_a.json"],
    [("us", [])], none, "No score differences to report."⟩

/-- Clock of the no-baseline scenario (the run stays within one second). -/
def constClock : Nat → String := fun _ => "T"

/-- Audit engine of the no-baseline scenario, returning a report with no
categories (the differ is never reached in that scenario). -/
def emptyAudit : String → String → Report := fun _ _ => ⟨[]⟩

/-- Filesystem with a single snapshot directory, used to witness the
fewer-than-two-snapshots case. -/
def oneSnapshotFs : FileSystem String where
  readdir := fun d => if d = "results/us" then [⟨"T0", true⟩] else []
  mtime := fun _ => 0
  readFile := fun _ => ReadResult.enoent

/-- Filesystem where reading the previous report fails with a permission
error, used to witness the fatal-error propagation case. -/
def permErrorFs : FileSystem String where
  readdir := fun d => if d = "results/us" then [⟨"T0", true⟩, ⟨"P", true⟩] else []
  mtime := fun p => if p = "results/us/T0" then 2 else 1
  readFile := fun _ => ReadResult.err "EACCES"

deriving instance DecidableEq for Except

/-! Helper lemmas about the embedding's list combinators. -/

theorem mapOption_length {α β : Type} (f : α → Option β) :
    ∀ (l : List α) (res : List β), mapOption f l = some res → res.length = l.length := by
  intro l
  induction l with
  | nil =>
    intro res h
    simp only [mapOption, Option.some.injEq] at h
    simp [← h]
  | cons a as ih =>
    intro res h
    simp only [mapOption] at h
    cases hfa : f a with
    | none => rw [hfa] at h; exact Option.noConfusion h
    | some b =>
      rw [hfa] at h
      cases hrest : mapOption f as with
      | none => rw [hrest] at h; exact Option.noConfusion h
      | some bs =>
        rw [hrest] at h
        simp only [Option.some.injEq] at h
        subst h
        simp [ih bs hrest]

theorem mapOption_get? {α β : Type} (f : α → Option β) :
    ∀ (l : List α) (res : List β), mapOption f l = some res →
      ∀ i : Nat, (l.get? i).bind f = res.get? i := by
  intro l
  induction l with
  | nil =>
    intro res h i
    simp only [mapOption, Option.some.injEq] at h
    simp [← h]
  | cons a as ih =>
    intro res h i
    simp only [mapOption] at h
    cases hfa : f a with
    | none => rw [hfa] at h; exact Option.noConfusion h
    | some b =>
      rw [hfa] at h
      cases hrest : mapOption f as with
      | none => rw [hrest] at h; exact Option.noConfusion h
      | some bs =>
        rw [hrest] at h
        simp only [Option.some.injEq] at h
        subst h
        cases i with
        | zero => simp [hfa]
        | succ j => simpa using ih bs hrest j

theorem mapOption_isSome {α β : Type} (f : α → Option β) :
    ∀ l : List α, (mapOption f l).isSome ↔ ∀ a ∈ l, (f a).isSome := by
  intro l
  induction l with
  | nil => simp [mapOption]
  | cons a as ih =>
    simp only [mapOption]
    cases hfa : f a with
    | none =>
      simp only [Option.isSome_none, Bool.false_eq_true, false_iff]
      intro hall
      have := hall a (List.mem_cons_self a as)
      rw [hfa] at this
      simp at this
    | some b =>
      cases hrest : mapOption f as with
      | none =>
        simp only [Option.isSome_none, Bool.false_eq_true, false_iff]
        intro hall
        have : (mapOption f as).isSome := by
          rw [ih]
          intro x hx
          exact hall x (List.mem_cons_of_mem a hx)
        rw [hrest] at this
        simp at this
      | some bs =>
        simp only [Option.isSome_some, true_iff]
        intro x hx
        rcases List.mem_cons.mp hx with h1 | h2
        · subst h1; rw [hfa]; rfl
        · have : (mapOption f as).isSome := by rw [hrest]; rfl
          rw [ih] at this
          exact this x h2

theorem lookup_isSome {β : Type} (k : String) :
    ∀ l : List (String × β), (List.lookup k l).isSome ↔ k ∈ l.map Prod.fst := by
  intro l
  induction l with
  | nil => simp [List.lookup]
  | cons p t ih =>
    by_cases h : k = p.1
    · simp [List.lookup, h]
    · have hbeq : (k == p.1) = false := beq_eq_false_iff_ne.mpr h
      simp [List.lookup, hbeq, ih, h]

theorem insertByMtimeDesc_length {β : Type} (x : β × Int) :
    ∀ l : List (β × Int), (insertByMtimeDesc x l).length = l.length + 1 := by
  intro l
  induction l with
  | nil => rfl
  | cons y ys ih =>
    simp only [insertByMtimeDesc]
    split
    · rfl
    · simp [ih]

theorem sortByMtimeDesc_length {β : Type} :
    ∀ l : List (β × Int), (sortByMtimeDesc l).length = l.length := by
  intro l
  induction l with
  | nil => rfl
  | cons x xs ih => simp [sortByMtimeDesc, insertByMtimeDesc_length, ih]

theorem toFixed2_zero : toFixed2 0 = "0.00" := by
  with_unfolding_all decide

theorem diffSelf_aux (R : Report) :
    ∀ ks : List String, (∀ k ∈ ks, (List.lookup k R.categories).isSome) →
      ∃ ds, mapOption (scoreEntry R R) ks = some ds ∧ ∀ d ∈ ds, d.difference = "0.00" := by
  intro ks
  induction ks with
  | nil => intro _; exact ⟨[], rfl, by simp⟩
  | cons k ks ih =>
    intro h
    obtain ⟨ds, hds, hall⟩ := ih (fun a ha => h a (List.mem_cons_of_mem _ ha))
    obtain ⟨cat, hcat⟩ := Option.isSome_iff_exists.mp (h k (List.mem_cons_self _ _))
    refine ⟨⟨cat.title, toFixed2 ((cat.score.getD 0) * 100), toFixed2 ((cat.score.getD 0) * 100),
      toFixed2 ((cat.score.getD 0) * 100 - (cat.score.getD 0) * 100)⟩ :: ds, ?_, ?_⟩
    · simp [mapOption, scoreEntry, hcat, hds]
    · intro d hd
      rcases List.mem_cons.mp hd with h1 | h2
      · rw [h1]
        show toFixed2 _ = "0.00"
        rw [sub_self]
        exact toFixed2_zero
      · exact hall d h2

/-! Claim theorems. -/

/-- C1 counterexample: contrary to the claim, computing score differences
does NOT succeed when a category present in `current` is absent from
`previous`: with an empty `previous.categories` and one category in
`current`, the computation fails (the JS code throws a `TypeError` reading
`.score` of `undefined`; the embedding returns `none`). -/
theorem C1_missing_category_counterexample :
    calculateScoreDifferences ⟨[]⟩ ⟨[("performance", ⟨"Performance", some 0.5⟩)]⟩ = none := by
  with_unfolding_all decide

/-- C1 (amended): computing score differences succeeds exactly when every
category identifier of `current` is also present in `previous`; a category
missing from `previous` makes the computation fail rather than being
treated as score 0 (only a present category whose score field is null is
treated as 0). -/
theorem C1_success_iff_previous_covers (p c : Report) :
    (calculateScoreDifferences p c).isSome ↔
      ∀ k ∈ c.categories.map Prod.fst, (List.lookup k p.categories).isSome := by
  unfold calculateScoreDifferences
  rw [mapOption_isSome]
  constructor
  · intro h k hk
    have hsome := h k hk
    unfold scoreEntry at hsome
    cases hc : List.lookup k c.categories with
    | none => rw [hc] at hsome; simp at hsome
    | some cat =>
      rw [hc] at hsome
      cases hp : List.lookup k p.categories with
      | none => rw [hp] at hsome; simp at hsome
      | some pcat => rfl
  · intro h k hk
    have hc : (List.lookup k c.categories).isSome := (lookup_isSome k c.categories).mpr hk
    obtain ⟨cat, hcat⟩ := Option.isSome_iff_exists.mp hc
    obtain ⟨pcat, hpcat⟩ := Option.isSome_iff_exists.mp (h k hk)
    unfold scoreEntry
    rw [hcat, hpcat]
    rfl

/-- C1 witness: the amended equivalence applied to the worked example,
whose previous report covers all categories of the current one. -/
theorem C1_success_iff_previous_covers_witness :
    (calculateScoreDifferences examplePrev exampleCur).isSome :=
  (C1_success_iff_previous_covers examplePrev exampleCur).mpr (by with_unfolding_all decide)

/-- C2 counterexample: in a concrete two-snapshot run whose two
`getLocalDateTime()` readings differ (`T0` during the loop, `T1` at render
time), the snapshot report files are keyed by `T0` but the summary is
written at `results/summary/summary-T1.html`, not at
`results/summary/summary-T0.html` as the claim requires. -/
theorem C2_summary_timestamp_counterexample :
    mainModel scenarioFs scenarioUrls [] scenarioClock scenarioAudit =
      Except.ok scenarioOutcome ∧
    scenarioOutcome.savedReports =
      [saveResultPath "T0" "http://x.com/a" "us" "mobile",
       saveResultPath "T0" "http://x.com/a" "us" "desktop"] ∧
    scenarioClock 0 = "T0" ∧
    scenarioOutcome.summaryWrite = some "results/summary/summary-T1.html" ∧
    "results/summary/summary-T1.html" ≠ "results/summary/summary-T0.html" := by
  refine ⟨by with_unfolding_all decide, by decide, rfl, rfl, by decide⟩

/-- C2 (amended): the aggregate summary document, when produced, is written
once at the end of the invocation at
`results/summary/summary-<t>.html`, where `<t>` is a FRESH timestamp taken
by a second `getLocalDateTime()` call at render time (clock reading 1) —
not necessarily the timestamp that keyed the snapshot directories (clock
reading 0); the two coincide only when both readings fall in the same
second. -/
theorem C2_summary_path_uses_second_clock (fs : FileSystem Report)
    (urlsObject : List (String × List String)) (args : List String)
    (clock : Nat → String) (audit : String → String → Report) (o : MainOutcome)
    (h : mainModel fs urlsObject args clock audit = Except.ok o) :
    o.summaryWrite = none ∨
      o.summaryWrite =
        some (joinPath (joinPath "results" "summary") ("summary-" ++ clock 1 ++ ".html")) := by
  simp only [mainModel] at h
  split at h
  · exact Except.noConfusion h
  · split at h
    · cases h; right; rfl
    · cases h; left; rfl

/-- C2 witness: the amended statement applied to the two-snapshot
scenario. -/
theorem C2_summary_path_uses_second_clock_witness :
    scenarioOutcome.summaryWrite = none ∨
      scenarioOutcome.summaryWrite =
        some (joinPath (joinPath "results" "summary")
          ("summary-" ++ scenarioClock 1 ++ ".html")) :=
  C2_summary_path_uses_second_clock scenarioFs scenarioUrls [] scenarioClock
    scenarioAudit scenarioOutcome (by with_unfolding_all decide)

/-- C3 counterexample: the URL-to-filename mapping does not merely strip a
LEADING scheme prefix: on `a/http://b`, which has no leading scheme, the
code removes the embedded first occurrence of `http://` and yields `a_b`,
while a mapping that follows the claim's words yields `a_http:__b`. -/
theorem C3_scheme_substring_counterexample :
    fileNameBase "a/http://b" = "a_b" ∧
    fileNameBaseSpec "a/http://b" = "a_http:__b" ∧
    fileNameBase "a/http://b" ≠ fileNameBaseSpec "a/http://b" := by
  exact ⟨rfl, rfl, by decide⟩

/-- C3 (amended): the mapping removes the FIRST occurrence of `http://` or
`https://` anywhere in the URL string — which is the leading prefix
whenever the URL starts with one — and replaces every `/` with `_`;
consequently two URLs differing only in their leading scheme map to the
same filename. -/
theorem C3_first_occurrence_strip (rest : String) :
    fileNameBase ("http://" ++ rest) = slashToUnderscore rest ∧
    fileNameBase ("https://" ++ rest) = slashToUnderscore rest ∧
    fileNameBase ("http://" ++ rest) = fileNameBase ("https://" ++ rest) := by
  cases rest with
  | mk l => exact ⟨rfl, rfl, rfl⟩

/-- C3 witness: the amended statement evaluated on the spec's example pair,
`http://x.com/a` and `https://x.com/a`, both mapping to `x.com_a`. -/
theorem C3_first_occurrence_strip_witness :
    fileNameBase ("http://" ++ "x.com/a") = slashToUnderscore "x.com/a" ∧
    fileNameBase ("https://" ++ "x.com/a") = slashToUnderscore "x.com/a" ∧
    fileNameBase ("http://" ++ "x.com/a") = fileNameBase ("https://" ++ "x.com/a") :=
  C3_first_occurrence_strip "x.com/a"

/-- C4: for every category present in both reports, the differ treats a
missing (null) score as 0 via `getD`, scales scores by 100, computes the
delta as current minus previous, and formats all three with the two-decimal
`toFixed2`; and on the spec's worked example (previous A 0.80 / B 0.90,
current A 0.85 / B 0.90) it yields exactly
[{A, 80.00, 85.00, 5.00}, {B, 90.00, 90.00, 0.00}]. -/
theorem C4_score_scaling_format :
    (∀ (p c : Report) (k : String) (cat pcat : Category),
        List.lookup k c.categories = some cat →
        List.lookup k p.categories = some pcat →
        scoreEntry p c k = some ⟨cat.title,
          toFixed2 ((pcat.score.getD 0) * 100),
          toFixed2 ((cat.score.getD 0) * 100),
          toFixed2 ((cat.score.getD 0) * 100 - (pcat.score.getD 0) * 100)⟩) ∧
    calculateScoreDifferences examplePrev exampleCur = some exampleDiffs := by
  constructor
  · intro p c k cat pcat hc hp
    unfold scoreEntry
    rw [hc, hp]
    rfl
  · with_unfolding_all decide

/-- C4 witness: the general entry formula applied at category `A` of the
worked example, evaluating to the concrete row {A, 80.00, 85.00, 5.00}. -/
theorem C4_score_scaling_format_witness :
    scoreEntry examplePrev exampleCur "A" = some ⟨"A", "80.00", "85.00", "5.00"⟩ := by
  have h := C4_score_scaling_format.1 examplePrev exampleCur "A"
    ⟨"A", some 0.85⟩ ⟨"A", some 0.80⟩
    (by with_unfolding_all decide) (by with_unfolding_all decide)
  rw [h]
  with_unfolding_all decide

/-- C5: whenever the differ succeeds, its output has exactly one entry per
category of the current report — the length equals the current report's
category count, and the entry at every index is produced from the category
key at the same index of the current report's iteration order. -/
theorem C5_diff_length_order (p c : Report) (ds : List ScoreDifference)
    (h : calculateScoreDifferences p c = some ds) :
    ds.length = c.categories.length ∧
    ∀ i : Nat, ((c.categories.map Prod.fst).get? i).bind (scoreEntry p c) = ds.get? i := by
  unfold calculateScoreDifferences at h
  constructor
  · rw [mapOption_length (scoreEntry p c) _ ds h]
    exact List.length_map _ _
  · exact mapOption_get? (scoreEntry p c) _ ds h

/-- C5 witness: length and index correspondence on the worked example. -/
theorem C5_diff_length_order_witness :
    exampleDiffs.length = exampleCur.categories.length ∧
    ∀ i : Nat, ((exampleCur.categories.map Prod.fst).get? i).bind
      (scoreEntry examplePrev exampleCur) = exampleDiffs.get? i :=
  C5_diff_length_order examplePrev exampleCur exampleDiffs (by with_unfolding_all decide)

/-- C6: diffing any report against itself succeeds and yields a formatted
delta of 0.00 for every category. -/
theorem C6_diff_self_zero (R : Report) :
    ∃ ds, calculateScoreDifferences R R = some ds ∧ ∀ d ∈ ds, d.difference = "0.00" :=
  diffSelf_aux R (R.categories.map Prod.fst)
    (fun k hk => (lookup_isSome k R.categories).mpr hk)

/-- C7: when the region's results directory holds fewer than two
subdirectories, the snapshot selector returns absent (no previous
report). -/
theorem C7_fewer_than_two_snapshots_absent {α : Type} (fs : FileSystem α)
    (url currentFilePath country device : String)
    (h : ((fs.readdir (countryDirOf currentFilePath)).filter
      (fun d => d.isDirectory)).length < 2) :
    getPreviousResult fs url currentFilePath country device = Except.ok none := by
  unfold getPreviousResult
  have hlen : (statsOf fs currentFilePath).length < 2 := by
    unfold statsOf timestampDirsOf
    rw [sortByMtimeDesc_length, List.length_map, List.length_map]
    exact h
  have hget : (statsOf fs currentFilePath).get? 1 = none :=
    List.get?_eq_none.mpr (by omega)
  rw [hget]

/-- C7 witness: a results tree with a single snapshot directory yields
absent. -/
theorem C7_fewer_than_two_snapshots_absent_witness :
    getPreviousResult oneSnapshotFs "http://x.com/a"
      "results/us/T0/mobile/x.com_a.json" "us" "mobile" = Except.ok none :=
  C7_fewer_than_two_snapshots_absent oneSnapshotFs "http://x.com/a"
    "results/us/T0/mobile/x.com_a.json" "us" "mobile" (by with_unfolding_all decide)

/-- C8: when a previous snapshot exists (the mtime-sorted stats list has a
second entry), the selector's result is fully determined by the read of the
previous report file: content maps to present, the ENOENT error class maps
to absent, and every other error code propagates as a fatal error — so the
selector returns absent on a read failure exactly when that failure is
ENOENT. -/
theorem C8_read_error_classification {α : Type} (fs : FileSystem α)
    (url currentFilePath country device : String)
    (a b : (String × String) × Int) (rest : List ((String × String) × Int))
    (h : statsOf fs currentFilePath = a :: b :: rest) :
    getPreviousResult fs url currentFilePath country device =
      match fs.readFile (joinPath (joinPath b.1.2 device) (fileNameBase url ++ ".json")) with
      | ReadResult.ok content => Except.ok (some content)
      | ReadResult.enoent => Except.ok none
      | ReadResult.err code => Except.error code := by
  unfold getPreviousResult
  rw [h]
  rfl

/-- C8 witness: a permission error (`EACCES`) while reading the previous
report aborts the invocation instead of being treated as absent. -/
theorem C8_read_error_classification_witness :
    getPreviousResult permErrorFs "http://x.com/a"
      "results/us/T0/mobile/x.com_a.json" "us" "mobile" = Except.error "EACCES" := by
  rw [C8_read_error_classification permErrorFs "http://x.com/a"
    "results/us/T0/mobile/x.com_a.json" "us" "mobile"
    (("T0", "results/us/T0"), 2) (("P", "results/us/P"), 1) []
    (by with_unfolding_all decide)]
  with_unfolding_all decide

/-- C9: when an invocation completes and no region accumulated any score
differences, no summary document is written, the final message is the
"nothing to compare" report, and the process exits with code 0. -/
theorem C9_no_differences_no_summary (fs : FileSystem Report)
    (urlsObject : List (String × List String)) (args : List String)
    (clock : Nat → String) (audit : String → String → Report) (o : MainOutcome)
    (h : mainModel fs urlsObject args clock audit = Except.ok o)
    (hempty : ∀ e ∈ o.allScoreDifferences, e.2 = []) :
    o.summaryWrite = none ∧ o.finalMessage = "No score differences to report." ∧
      exitCode (mainModel fs urlsObject args clock audit) = 0 := by
  have hexit : exitCode (mainModel fs urlsObject args clock audit) = 0 := by
    rw [h]; rfl
  simp only [mainModel] at h
  split at h
  · exact Except.noConfusion h
  · rename_i saved allDiffs heq
    split at h
    · rename_i hany
      cases h
      obtain ⟨p, hp, hplen⟩ := List.any_eq_true.mp hany
      have hlen := of_decide_eq_true hplen
      rw [hempty p hp] at hlen
      simp at hlen
    · cases h
      exact ⟨rfl, rfl, hexit⟩

/-- C9 witness: a run over a fresh results tree (no prior snapshots at
all) writes no summary, reports nothing to compare, and exits 0. -/
theorem C9_no_differences_no_summary_witness :
    noBaselineOutcome.summaryWrite = none ∧
    noBaselineOutcome.finalMessage = "No score differences to report." ∧
    exitCode (mainModel emptyFs scenarioUrls [] constClock emptyAudit) = 0 :=
  C9_no_differences_no_summary emptyFs scenarioUrls [] constClock emptyAudit
    noBaselineOutcome (by with_unfolding_all decide) (by with_unfolding_all decide)

/-- C10: the snapshot selector's result does not depend on its region
(country) argument, which the source accepts but never uses: the region
directory is derived from the current report's path alone. -/
theorem C10_country_independent {α : Type} (fs : FileSystem α)
    (url currentFilePath device country1 country2 : String) :
    getPreviousResult fs url currentFilePath country1 device =
      getPreviousResult fs url currentFilePath country2 device := rfl

end LighthouseCI
